import Mathlib

/-!
Shallow embedding of the museums pipeline (museums.py and make_museums_map.py).

The enricher (make_museums_map.py) reads a record list and a geocode cache,
resolves missing coordinates through the Nominatim HTTP interface, and writes
records and cache back after each step.  External effects are made explicit:

* the resolution service is an oracle `svc : Nat → GetResult` giving the
  outcome of the n-th HTTP GET issued by the run (a transport exception, or a
  status code together with the parsed-or-unparseable JSON body);
* `time.sleep` calls are logged as a list of durations;
* `save_json` calls are logged as `SaveEvent`s carrying the saved value;
* uncaught Python exceptions are `Except.error` values of type `PyErr`.

Machine floats are modelled as `Rat`; every definition is executable.
-/

deriving instance DecidableEq for Except

namespace Museums

/-- JSON values as produced by `resp.json()` / `json.load`. -/
inductive Jsonv where
  | null
  | bool (b : Bool)
  | num (q : Rat)
  | str (s : String)
  | arr (xs : List Jsonv)
  | obj (fields : List (String × Jsonv))

/-- Python exceptions that escape the narrow handlers in the source: the
`except requests.RequestException` in `_geocode_nominatim` (KeyError /
TypeError / ValueError / IndexError from the result-shape code) and the
`except json.JSONDecodeError` in `load_json` (UnicodeDecodeError raised by
`json.load` on bytes that are not valid UTF-8). -/
inductive PyErr where
  | keyError
  | typeError
  | valueError
  | indexError
  | unicodeDecodeError
deriving DecidableEq

/-- Python truthiness test `not data` (negated) on a JSON value. -/
def jfalsy : Jsonv → Bool
  | .null => true
  | .bool b => !b
  | .num q => q == 0
  | .str s => s == ""
  | .arr xs => xs.isEmpty
  | .obj fields => fields.isEmpty

/-- Python dict lookup on an object built by `json` (for duplicate keys the
last occurrence wins, as in `json.loads`). -/
def dictGet (fields : List (String × Jsonv)) (key : String) : Option Jsonv :=
  (fields.reverse.find? (fun p => p.1 == key)).map (fun p => p.2)

/-- Python subscript `data[0]` on a truthy JSON value: first element of a
non-empty list, first character of a non-empty string, `KeyError` for a dict
(JSON objects have no integer key 0), `TypeError` otherwise. -/
def subscript0 : Jsonv → Except PyErr Jsonv
  | .arr xs =>
      match xs with
      | [] => Except.error PyErr.indexError
      | x :: _ => Except.ok x
  | .obj _ => Except.error PyErr.keyError
  | .str s =>
      match s.toList with
      | [] => Except.error PyErr.indexError
      | ch :: _ => Except.ok (Jsonv.str (String.mk [ch]))
  | _ => Except.error PyErr.typeError

/-- Python subscript `v[key]` with a string key: dict lookup (KeyError when
absent), `TypeError` on any non-dict value. -/
def subscriptStr (v : Jsonv) (key : String) : Except PyErr Jsonv :=
  match v with
  | .obj fields =>
      match dictGet fields key with
      | some w => Except.ok w
      | none => Except.error PyErr.keyError
  | _ => Except.error PyErr.typeError

/-- Numeric value of a list of decimal digit characters. -/
def digitsVal (cs : List Char) : Nat :=
  cs.foldl (fun a c => a * 10 + (c.toNat - 48)) 0

/-- Drop leading whitespace characters. -/
def dropWs : List Char → List Char
  | [] => []
  | c :: rest => if c.isWhitespace then dropWs rest else c :: rest

/-- Python `str.strip()`: whitespace removed from both ends. -/
def pyStrip (cs : List Char) : List Char :=
  (dropWs (dropWs cs).reverse).reverse

/-- Split a character list at every `'.'`. -/
def splitDot : List Char → List (List Char)
  | [] => [[]]
  | c :: rest =>
      if c = '.' then [] :: splitDot rest
      else
        match splitDot rest with
        | [] => [[c]]
        | seg :: segs => (c :: seg) :: segs

/-- Python `float(s)` on a string, for plain decimal forms (optional sign,
digits, optional single decimal point; surrounding whitespace stripped).
Exotic accepted forms (exponents, `inf`, `nan`, underscores) are outside the
values this program ever meets and are mapped to `none` (ValueError). -/
def parseFloat? (s : String) : Option Rat :=
  let t := pyStrip s.toList
  let su : Bool × List Char :=
    match t with
    | '-' :: r => (true, r)
    | '+' :: r => (false, r)
    | r => (false, r)
  let sgn : Int → Int := fun n => if su.1 then -n else n
  match splitDot su.2 with
  | [wd] =>
      if !wd.isEmpty && wd.all Char.isDigit then
        some (mkRat (sgn (digitsVal wd : Int)) 1)
      else none
  | [wd, fd] =>
      if wd.all Char.isDigit && fd.all Char.isDigit && !(wd.isEmpty && fd.isEmpty) then
        some (mkRat (sgn ((digitsVal wd * 10 ^ fd.length + digitsVal fd : Nat) : Int))
          (10 ^ fd.length))
      else none
  | _ => none

/-- Python `float(v)` applied to a JSON value (`TypeError` on null / list /
dict, `ValueError` on an unparseable string). -/
def pyFloat : Jsonv → Except PyErr Rat
  | .num q => Except.ok q
  | .bool b => Except.ok (if b then 1 else 0)
  | .str s =>
      match parseFloat? s with
      | some q => Except.ok q
      | none => Except.error PyErr.valueError
  | _ => Except.error PyErr.typeError

/-- Outcome of one `session.get` as observed by the caller: a raised
`requests.RequestException`, or a response with a status code and a body
(`Except.error ()` when `resp.json()` fails to decode, which raises a
`RequestException` subclass and is therefore caught). -/
inductive GetResult where
  | exn
  | resp (status : Nat) (body : Except Unit Jsonv)

/-- Backoff used by `_geocode_nominatim` after a 429 status. -/
def RETRY_BACKOFF_SECONDS : Rat := 5

/-- Delay imposed after every cache-missing geocode, from the config block. -/
def GEOCODE_SLEEP_SECONDS : Rat := mkRat 6 5

/-- Body of `_geocode_nominatim` after the 429 check, for one response:
`resp.raise_for_status()` (raises `requests.HTTPError`, caught, for statuses
400-599), then `data = resp.json()`, then `if not data: return (None, None)`,
then `float(data[0]["lat"])`, `float(data[0]["lon"])`.  Only
`RequestException`s are caught; `KeyError` / `TypeError` / `ValueError` from
the last two lines propagate. -/
def processResp (status : Nat) (body : Except Unit Jsonv) :
    Except PyErr (Option Rat × Option Rat) :=
  if 400 ≤ status ∧ status < 600 then Except.ok (none, none)
  else
    match body with
    | Except.error _ => Except.ok (none, none)
    | Except.ok data =>
      if jfalsy data then Except.ok (none, none)
      else
        match subscript0 data with
        | Except.error e => Except.error e
        | Except.ok d0 =>
          match subscriptStr d0 "lat" with
          | Except.error e => Except.error e
          | Except.ok latv =>
            match pyFloat latv with
            | Except.error e => Except.error e
            | Except.ok lat =>
              match subscriptStr d0 "lon" with
              | Except.error e => Except.error e
              | Except.ok lonv =>
                match pyFloat lonv with
                | Except.error e => Except.error e
                | Except.ok lon => Except.ok (some lat, some lon)

/-- Handling of the response to the single retry issued after a 429: the
retried `session.get` may itself raise (caught → not-found), otherwise its
response is processed normally — no further throttle check is made. -/
def handleRetry : GetResult → Except PyErr (Option Rat × Option Rat)
  | GetResult.exn => Except.ok (none, none)
  | GetResult.resp st body => processResp st body

/-- Observable outcome of one `_geocode_nominatim` call: the returned pair
(or escaped exception), the query string of each GET issued, the sleeps
performed, and the index of the next unconsumed service response. -/
structure GeoOut where
  result : Except PyErr (Option Rat × Option Rat)
  queries : List String
  sleeps : List Rat
  next : Nat

/-- `_geocode_nominatim(query, session)`: one GET; on status 429 sleep
`RETRY_BACKOFF_SECONDS` and repeat the same GET once, accepting whatever it
yields; transport exceptions anywhere are caught as `(None, None)`. -/
def geocode_nominatim (q : String) (svc : Nat → GetResult) (k : Nat) : GeoOut :=
  match svc k with
  | GetResult.exn => ⟨Except.ok (none, none), [q], [], k + 1⟩
  | GetResult.resp st body =>
    if st = 429 then
      ⟨handleRetry (svc (k + 1)), [q, q], [RETRY_BACKOFF_SECONDS], k + 2⟩
    else
      ⟨processResp st body, [q], [], k + 1⟩

/-- One harvested venue record, as written by `museum_data` in museums.py and
as read/updated by the enricher (`latitude` / `longitude` absent until the
enricher sets them; `item.get` on an absent key yields `none`). -/
structure Record where
  name : String
  thumbnail : Option String
  link : String
  location : String
  latitude : Option Rat := none
  longitude : Option Rat := none
deriving DecidableEq

/-- The geocode cache: the insertion-ordered dict persisted in
geocode_cache.json, mapping a raw address to a coordinate pair or the
`(null, null)` not-found sentinel. -/
abbrev CacheT := List (String × (Option Rat × Option Rat))

/-- Dict membership / lookup `address in cache`, `cache[address]`. -/
def lookupC : CacheT → String → Option (Option Rat × Option Rat)
  | [], _ => none
  | (a, v) :: rest, b => if a = b then some v else lookupC rest b

/-- One `save_json(path, obj)` call, with the value written. -/
inductive SaveEvent where
  | cacheFile (c : CacheT)
  | recordsFile (ms : List Record)
deriving DecidableEq

/-- Observable outcome of one `geocode_address` call. -/
structure GeocodeOut where
  result : Except PyErr (Option Rat × Option Rat)
  cache : CacheT
  queries : List String
  sleeps : List Rat
  saves : List SaveEvent
  next : Nat

/-- `geocode_address(address, session, cache)`: falsy address → `(None,
None)` with no lookup, no call, no write; cache hit → cached value, no call;
cache miss → `_geocode_nominatim(address)`, on `(None, None)` retried once
with the `", Netherlands"` suffix, outcome stored under the raw address,
cache file saved, rate-limit sleep, outcome returned.  An exception escaping
`_geocode_nominatim` propagates before any cache write or save. -/
def geocode_address (address : String) (cache : CacheT)
    (svc : Nat → GetResult) (k : Nat) : GeocodeOut :=
  if address = "" then ⟨Except.ok (none, none), cache, [], [], [], k⟩
  else
    match lookupC cache address with
    | some v => ⟨Except.ok v, cache, [], [], [], k⟩
    | none =>
      let g1 := geocode_nominatim address svc k
      match g1.result with
      | Except.error e => ⟨Except.error e, cache, g1.queries, g1.sleeps, [], g1.next⟩
      | Except.ok c1 =>
        if c1 = (none, none) then
          let g2 := geocode_nominatim (address ++ ", Netherlands") svc g1.next
          match g2.result with
          | Except.error e =>
              ⟨Except.error e, cache, g1.queries ++ g2.queries,
                g1.sleeps ++ g2.sleeps, [], g2.next⟩
          | Except.ok c2 =>
              let cache2 := cache ++ [(address, c2)]
              ⟨Except.ok c2, cache2, g1.queries ++ g2.queries,
                g1.sleeps ++ g2.sleeps ++ [GEOCODE_SLEEP_SECONDS],
                [SaveEvent.cacheFile cache2], g2.next⟩
        else
          let cache2 := cache ++ [(address, c1)]
          ⟨Except.ok c1, cache2, g1.queries,
            g1.sleeps ++ [GEOCODE_SLEEP_SECONDS],
            [SaveEvent.cacheFile cache2], g1.next⟩

/-- Observable outcome of the enrichment pass of `main`: the final record
list and cache, the GET queries and sleeps issued, the `save_json` calls
made, the next unconsumed service response, and the exception (if any) that
aborted the loop. -/
structure EnrichOut where
  museums : List Record
  cache : CacheT
  queries : List String
  sleeps : List Rat
  saves : List SaveEvent
  next : Nat
  err : Option PyErr

/-- The `for i, item in enumerate(museums)` loop of `main`, restricted to
its enrichment effect: records already carrying both coordinates are
skipped; otherwise the record's location is geocoded and both fields are
assigned from the outcome, after which the full record list is saved.
`prior` is the already-traversed portion of the (in-place mutated) list.  An
exception escaping `geocode_address` aborts the loop, leaving the current
item and the rest untouched. -/
def enrichFrom (svc : Nat → GetResult) :
    List Record → List Record → CacheT → Nat → EnrichOut
  | prior, [], cache, k => ⟨prior, cache, [], [], [], k, none⟩
  | prior, item :: rest, cache, k =>
    if item.latitude.isNone || item.longitude.isNone then
      match (geocode_address item.location cache svc k).result with
      | Except.error e =>
          ⟨prior ++ item :: rest, (geocode_address item.location cache svc k).cache,
            (geocode_address item.location cache svc k).queries,
            (geocode_address item.location cache svc k).sleeps,
            (geocode_address item.location cache svc k).saves,
            (geocode_address item.location cache svc k).next, some e⟩
      | Except.ok v =>
          let item2 := { item with latitude := v.1, longitude := v.2 }
          let out := enrichFrom svc (prior ++ [item2]) rest
            (geocode_address item.location cache svc k).cache
            (geocode_address item.location cache svc k).next
          ⟨out.museums, out.cache,
            (geocode_address item.location cache svc k).queries ++ out.queries,
            (geocode_address item.location cache svc k).sleeps ++ out.sleeps,
            (geocode_address item.location cache svc k).saves ++
              SaveEvent.recordsFile (prior ++ item2 :: rest) :: out.saves,
            out.next, out.err⟩
    else
      enrichFrom svc (prior ++ [item]) rest cache k

/-- The enrichment pass of `main` over the whole loaded record list. -/
def enrich (ms : List Record) (cache : CacheT)
    (svc : Nat → GetResult) (k : Nat) : EnrichOut :=
  enrichFrom svc [] ms cache k

/-- `load_json(path, default)` input: the state of the file at `path` —
absent; present with bytes that decode as UTF-8 but fail JSON parsing
(`json.JSONDecodeError`); present with bytes that are not valid UTF-8 (on
which `json.load` raises `UnicodeDecodeError`); or valid content. -/
inductive Stored (α : Type) where
  | absent
  | corruptJson
  | corruptBytes
  | valid (a : α)

/-- `load_json(path, default)`: the caller-supplied default when the file is
absent or its content raises `json.JSONDecodeError`; the parsed value
otherwise.  A `UnicodeDecodeError` from `json.load` on invalid UTF-8 bytes
is NOT a `json.JSONDecodeError` and is not caught: it propagates to the
caller.  (The same pattern guards the resume load in museums.py.) -/
def load_json {α : Type} : Stored α → α → Except PyErr α
  | Stored.absent, d => Except.ok d
  | Stored.corruptJson, d => Except.ok d
  | Stored.corruptBytes, _ => Except.error PyErr.unicodeDecodeError
  | Stored.valid a, _ => Except.ok a

/-- Outcome of one round of the "Laad meer" while-loop in museums.py:
the click succeeds, the button is gone (`NoSuchElementException`), or the
click is obstructed (`ElementClickInterceptedException`). -/
inductive ClickOutcome where
  | ok
  | noSuchElement
  | intercepted

/-- The `while True` load-more loop, observed up to `fuel` iterations:
`some i` when the loop exits (button absent) at round `i` within the bound,
`none` when it is still running after `fuel` rounds.  The source loop has no
retry bound of its own: a successful click and an intercepted click both
simply continue. -/
def loadMoreLoop (env : Nat → ClickOutcome) : Nat → Nat → Option Nat
  | 0, _ => none
  | fuel + 1, i =>
    match env i with
    | ClickOutcome.noSuchElement => some i
    | ClickOutcome.ok => loadMoreLoop env fuel (i + 1)
    | ClickOutcome.intercepted => loadMoreLoop env fuel (i + 1)

/-- Failure points of one card iteration, all subclasses of `Exception` and
caught by the per-card `except Exception` handler. -/
inductive ScrapeErr where
  | noSuchElement
  | attributeError
  | fetchError
deriving DecidableEq

/-- One child element of the detail page's address block, as seen by
BeautifulSoup: a tag name and the text it contributes. -/
structure AddrNode where
  tag : String
  text : String
deriving DecidableEq

/-- The parts of a detail page the scraper reads: the first `h1` (if any)
and the `section.practical-info address` block (if any). -/
structure DetailPage where
  h1 : Option String
  addressBlock : Option (List AddrNode)
deriving DecidableEq

/-- The parts of one listing card the scraper touches.  `none` at the outer
level models the corresponding operation raising (`find_element` →
`NoSuchElementException`, `requests.get` → a fetch error); the inner
`Option` is the attribute value, which may be null. -/
structure Card where
  linkHref : Option (Option String)
  fetched : Option DetailPage
  imgSrc : Option (Option String)
deriving DecidableEq

/-- Address cleaning: `decompose()` every nested `a`/`svg`/`strong`/`span`
child, then `get_text(separator=" ", strip=True)` over what remains. -/
def stripAddress (children : List AddrNode) : String :=
  String.intercalate " "
    ((children.filter
      (fun n => !(n.tag == "a" || n.tag == "svg" || n.tag == "strong" || n.tag == "span"))).map
      (fun n => n.text))

/-- Python `partial_link.startswith("/")`. -/
def startsSlash (s : String) : Bool :=
  match s.toList with
  | '/' :: _ => true
  | _ => false

/-- The body of the per-card try block, in source order: link element lookup,
`href` attribute (`None.startswith` → AttributeError), detail-page fetch,
`h1` title with "Unknown" fallback, thumbnail element lookup, address block
with "Unknown" fallback.  A successful card yields a `museum_data` record,
which carries no coordinate fields. -/
def scrapeCard (c : Card) : Except ScrapeErr Record :=
  match c.linkHref with
  | none => Except.error ScrapeErr.noSuchElement
  | some none => Except.error ScrapeErr.attributeError
  | some (some plink) =>
    match c.fetched with
    | none => Except.error ScrapeErr.fetchError
    | some page =>
      match c.imgSrc with
      | none => Except.error ScrapeErr.noSuchElement
      | some thumb =>
        Except.ok
          { name := match page.h1 with
              | some t => t
              | none => "Unknown"
            thumbnail := thumb
            link := if startsSlash plink then "https://www.museum.nl" ++ plink else plink
            location := match page.addressBlock with
              | some b => stripAddress b
              | none => "Unknown" }

/-- Observable outcome of the per-card scraping loop: the accumulated record
list, the per-card errors that were caught and printed, and the snapshots
written to museums.json after each successful card. -/
structure ScrapeOut where
  museums : List Record
  errors : List ScrapeErr
  saves : List (List Record)
deriving DecidableEq

/-- The `for i, card in enumerate(cards)` loop: a successful card is
appended to the list and the full list is saved; a failing card is logged
and skipped, and the loop continues with the next card. -/
def scrapeCards : List Card → List Record → ScrapeOut
  | [], ms => ⟨ms, [], []⟩
  | c :: rest, ms =>
    match scrapeCard c with
    | Except.ok r =>
        let out := scrapeCards rest (ms ++ [r])
        ⟨out.museums, out.errors, (ms ++ [r]) :: out.saves⟩
    | Except.error e =>
        let out := scrapeCards rest ms
        ⟨out.museums, e :: out.errors, out.saves⟩

/-- A throttling response: status 429. -/
def isThrottle : GetResult → Bool
  | GetResult.exn => false
  | GetResult.resp st _ => st == 429

/-- A response class the geocoder's exception handling fully covers: a
transport exception, an HTTP error status (including 429), an undecodable
body, or a body decoding to a falsy value (empty result list). -/
def failureResp : GetResult → Bool
  | GetResult.exn => true
  | GetResult.resp st body =>
      (decide (400 ≤ st) && decide (st < 600)) ||
      (match body with
       | Except.error _ => true
       | Except.ok d => jfalsy d)

/-- Concrete cache used by the C2 witness. -/
def cacheHit0 : CacheT := [("Main St 1", (some 52, some 5))]

/-- Service trace for the C4 witness: a throttling response followed by a
successful response. -/
def svcThrottle : Nat → GetResult := fun n =>
  if n = 0 then GetResult.resp 429 (Except.error ())
  else GetResult.resp 200 (Except.ok (Jsonv.arr [Jsonv.obj [("lat", Jsonv.num 52), ("lon", Jsonv.num 5)]]))

/-- Service trace for the C5 counterexample: HTTP 200 with the well-formed
JSON body `[{}]` — a non-empty candidate list whose entry has no "lat". -/
def badSvc : Nat → GetResult := fun _ =>
  GetResult.resp 200 (Except.ok (Jsonv.arr [Jsonv.obj []]))

/-- `c2` contains every binding of `c` (with the same value). -/
def cacheExtends (c c2 : CacheT) : Prop :=
  ∀ a v, lookupC c a = some v → lookupC c2 a = some v

/-- A record is `settled` for a cache when a further enrichment pass cannot
change it: it already has both coordinates, or its address is falsy, or its
address has a cache entry matching its stored coordinate fields. -/
def settled (c : CacheT) (r : Record) : Prop :=
  (r.latitude ≠ none ∧ r.longitude ≠ none) ∨
  (r.location = "" ∧ r.latitude = none ∧ r.longitude = none) ∨
  (r.location ≠ "" ∧ ∃ v, lookupC c r.location = some v ∧
    r.latitude = v.1 ∧ r.longitude = v.2)

/-- Record list for the C1 witness. -/
def ms0 : List Record := [{ name := "A Museum", thumbnail := none, link := "", location := "Main St 1" }]

/-- Service trace for the C1 witness: always a successful match. -/
def svcOk : Nat → GetResult := fun _ =>
  GetResult.resp 200 (Except.ok (Jsonv.arr [Jsonv.obj [("lat", Jsonv.str "52.1"), ("lon", Jsonv.str "5.2")]]))

/-- What C3 asserts of a completed cache miss: the final outcome is cached
under the raw key and the cache file saved with exactly that content; the
queries are those of the raw-address call followed — exactly when that call
produced no result — by those of the country-qualified call; the raw call's
queries all use the raw address (and there is at least one); the fallback
call's queries all carry the fixed suffix; and the final outcome is the
fallback's outcome when the raw call was empty, the raw call's otherwise. -/
def cacheMissSpec (A : String) (cache : CacheT) (svc : Nat → GetResult) (k : Nat)
    (c : Option Rat × Option Rat) : Prop :=
  (geocode_address A cache svc k).cache = cache ++ [(A, c)] ∧
  (geocode_address A cache svc k).saves = [SaveEvent.cacheFile (cache ++ [(A, c)])] ∧
  (geocode_address A cache svc k).queries =
    (geocode_nominatim A svc k).queries ++
      (if (geocode_nominatim A svc k).result = Except.ok ((none, none) : Option Rat × Option Rat)
        then (geocode_nominatim (A ++ ", Netherlands") svc (geocode_nominatim A svc k).next).queries
        else []) ∧
  (geocode_nominatim A svc k).queries.head? = some A ∧
  ((geocode_nominatim A svc k).queries.all (fun s => s == A)) = true ∧
  ((geocode_nominatim (A ++ ", Netherlands") svc (geocode_nominatim A svc k).next).queries.all
    (fun s => s == A ++ ", Netherlands")) = true ∧
  ((geocode_nominatim A svc k).result = Except.ok ((none, none) : Option Rat × Option Rat) →
    (geocode_nominatim (A ++ ", Netherlands") svc (geocode_nominatim A svc k).next).result =
      Except.ok c) ∧
  ((geocode_nominatim A svc k).result ≠ Except.ok ((none, none) : Option Rat × Option Rat) →
    (geocode_nominatim A svc k).result = Except.ok c)

/-- Service trace for the C3 witness: empty result for the raw query, a
successful match for the country-qualified fallback. -/
def svcC3 : Nat → GetResult := fun n =>
  if n = 0 then GetResult.resp 200 (Except.ok (Jsonv.arr []))
  else GetResult.resp 200 (Except.ok (Jsonv.arr [Jsonv.obj [("lat", Jsonv.str "52.1"), ("lon", Jsonv.str "5.2")]]))

/-- Boolean form of the record invariant: latitude and longitude are both
present or both absent. -/
def recInvB (r : Record) : Bool := r.latitude.isSome == r.longitude.isSome

/-- Boolean form of the cache invariant: every cached value is a full
coordinate pair or a full `(null, null)` sentinel. -/
def cacheInvB (c : CacheT) : Bool := c.all (fun p => p.2.1.isSome == p.2.2.isSome)

/-- Record for the C6 witness. -/
def rec0 : Record := { name := "A", thumbnail := none, link := "", location := "Main St 1" }

/-! ### Lemmas and claim theorems -/

theorem processResp_fail (st : Nat) (body : Except Unit Jsonv)
    (h : failureResp (GetResult.resp st body) = true) :
    processResp st body = Except.ok (none, none) := by
  simp only [failureResp, Bool.or_eq_true, Bool.and_eq_true, decide_eq_true_eq] at h
  unfold processResp
  by_cases hr : 400 ≤ st ∧ st < 600
  · rw [if_pos hr]
  · rw [if_neg hr]
    rcases body with u | d
    · rfl
    · have hd : jfalsy d = true := by
        rcases h with h1 | h2
        · exact absurd h1 hr
        · exact h2
      simp [hd]

theorem geocode_nominatim_fail (q : String) (svc : Nat → GetResult) (k : Nat)
    (h1 : failureResp (svc k) = true) (h2 : failureResp (svc (k + 1)) = true) :
    (geocode_nominatim q svc k).result = Except.ok (none, none) := by
  unfold geocode_nominatim
  rcases hk : svc k with _ | ⟨st, body⟩
  · rfl
  · rw [hk] at h1
    by_cases hst : st = 429
    · subst hst
      simp only [if_pos rfl]
      rcases hk2 : svc (k + 1) with _ | ⟨st2, body2⟩
      · rfl
      · rw [hk2] at h2
        simp [handleRetry, processResp_fail _ _ h2]
    · simp only [if_neg hst]
      exact processResp_fail _ _ h1

theorem geocode_nominatim_queries (q : String) (svc : Nat → GetResult) (k : Nat) :
    (geocode_nominatim q svc k).queries = [q] ∨ (geocode_nominatim q svc k).queries = [q, q] := by
  unfold geocode_nominatim
  rcases svc k with _ | ⟨st, body⟩
  · exact Or.inl rfl
  · by_cases hst : st = 429
    · exact Or.inr (by simp [hst])
    · exact Or.inl (by simp [hst])

theorem lookupC_append_of_some (c : CacheT) (d : CacheT) (a : String)
    (v : Option Rat × Option Rat) (h : lookupC c a = some v) :
    lookupC (c ++ d) a = some v := by
  induction c with
  | nil => simp [lookupC] at h
  | cons p rest ih =>
    rcases p with ⟨b, w⟩
    by_cases hb : b = a
    · simpa [lookupC, hb] using h
    · rw [lookupC, if_neg hb] at h
      simpa [lookupC, hb] using ih h

theorem lookupC_append_self (c : CacheT) (a : String) (v : Option Rat × Option Rat)
    (h : lookupC c a = none) : lookupC (c ++ [(a, v)]) a = some v := by
  induction c with
  | nil => simp [lookupC]
  | cons p rest ih =>
    rcases p with ⟨b, w⟩
    by_cases hb : b = a
    · rw [lookupC, if_pos hb] at h
      cases h
    · rw [lookupC, if_neg hb] at h
      simpa [lookupC, hb] using ih h

theorem lookupC_mem (c : CacheT) (a : String) (v : Option Rat × Option Rat)
    (h : lookupC c a = some v) : (a, v) ∈ c := by
  induction c with
  | nil => simp [lookupC] at h
  | cons p rest ih =>
    rcases p with ⟨b, w⟩
    by_cases hb : b = a
    · rw [lookupC, if_pos hb] at h
      cases h
      exact hb ▸ List.mem_cons_self _ _
    · rw [lookupC, if_neg hb] at h
      exact List.mem_cons_of_mem _ (ih h)

/-- C10: for every cache state, `geocode_address` on an empty (falsy) address
returns `(None, None)` immediately: no cache lookup (any entry for the empty
string is ignored, since the result is the same for every cache), zero
resolution calls, zero sleeps, no cache write and no save. -/
theorem C10_empty_address (cache : CacheT) (svc : Nat → GetResult) (k : Nat) :
    geocode_address "" cache svc k = ⟨Except.ok (none, none), cache, [], [], [], k⟩ := by
  simp [geocode_address]

/-- C2: for every non-empty address with an existing cache entry E,
`geocode_address` returns exactly E, issues zero resolution calls, leaves
the cache unchanged and saves nothing. -/
theorem C2_cache_hit (A : String) (cache : CacheT) (svc : Nat → GetResult) (k : Nat)
    (E : Option Rat × Option Rat) (hA : A ≠ "") (hE : lookupC cache A = some E) :
    geocode_address A cache svc k = ⟨Except.ok E, cache, [], [], [], k⟩ := by
  simp [geocode_address, hA, hE]

/-- C2 witness: a concrete hit on a one-entry cache. -/
theorem C2_cache_hit_witness :
    (("Main St 1" : String) ≠ "") ∧
    lookupC cacheHit0 "Main St 1" = some (some 52, some 5) ∧
    geocode_address "Main St 1" cacheHit0 (fun _ => GetResult.exn) 7 =
      ⟨Except.ok (some 52, some 5), cacheHit0, [], [], [], 7⟩ :=
  ⟨by decide, by decide,
    C2_cache_hit "Main St 1" cacheHit0 (fun _ => GetResult.exn) 7 (some 52, some 5)
      (by decide) (by decide)⟩

/-- C4: whenever the service answers a query with the throttling status 429,
`_geocode_nominatim` sleeps the fixed backoff once, issues exactly one retry
of the same query (two GETs total, both with query `q`), and its result is
exactly the handling of whatever the retry returns — success, empty, or
error alike. -/
theorem C4_throttle_retry (q : String) (svc : Nat → GetResult) (k : Nat)
    (h : isThrottle (svc k) = true) :
    geocode_nominatim q svc k =
      ⟨handleRetry (svc (k + 1)), [q, q], [RETRY_BACKOFF_SECONDS], k + 2⟩ := by
  rcases hk : svc k with _ | ⟨st, body⟩
  · rw [hk] at h
    simp [isThrottle] at h
  · rw [hk] at h
    simp only [isThrottle] at h
    have hst : st = 429 := by simpa using h
    simp [geocode_nominatim, hk, hst]

/-- C4 witness: throttle then success yields exactly the successful outcome
with exactly one retry. -/
theorem C4_throttle_retry_witness :
    isThrottle (svcThrottle 0) = true ∧
    geocode_nominatim "Rijksmuseum" svcThrottle 0 =
      ⟨handleRetry (svcThrottle 1), ["Rijksmuseum", "Rijksmuseum"], [RETRY_BACKOFF_SECONDS], 0 + 2⟩ ∧
    handleRetry (svcThrottle 1) = Except.ok (some 52, some 5) :=
  ⟨by decide, C4_throttle_retry "Rijksmuseum" svcThrottle 0 (by decide), by decide⟩

/-- C7: the code's load-more loop retried an obstructed click with no retry
bound — on a trace where the click is intercepted on every attempt, the loop
never exits within any number of iterations (the claim's bounded-retry
termination is violated by the source). -/
theorem C7_unbounded_retry :
    ∀ (fuel i : Nat), loadMoreLoop (fun _ => ClickOutcome.intercepted) fuel i = none := by
  intro fuel
  induction fuel with
  | zero => intro i; rfl
  | succ n ih =>
    intro i
    simpa [loadMoreLoop] using ih (i + 1)

/-- C8: per-entry failure isolation in the card loop: the final record list
is the pre-existing records followed by exactly the successfully scraped
cards in order (every failing card is skipped and contributes nothing), and
every failing card's error is caught and logged, in order. -/
theorem C8_failure_isolation (cards : List Card) (existing : List Record) :
    (scrapeCards cards existing).museums =
      existing ++ cards.filterMap (fun c => (scrapeCard c).toOption) ∧
    (scrapeCards cards existing).errors =
      cards.filterMap (fun c =>
        match scrapeCard c with
        | Except.ok _ => none
        | Except.error e => some e) := by
  induction cards generalizing existing with
  | nil => simp [scrapeCards]
  | cons c rest ih =>
    rcases hc : scrapeCard c with e | r
    · have := ih existing
      simp [scrapeCards, hc, List.filterMap_cons, this.1, this.2, Except.toOption]
    · have := ih (existing ++ [r])
      simp [scrapeCards, hc, List.filterMap_cons, this.1, this.2, Except.toOption]

/-- C9 counterexample: a present cache file whose bytes are not valid UTF-8
makes `json.load` raise `UnicodeDecodeError` inside the `try`, which the
`except json.JSONDecodeError` clause does not catch — `load_json` raises
instead of returning the default, refuting "present but unparseable content
silently returns the default" and "loading a corrupted cache file never
aborts the pipeline". -/
theorem C9_load_crash_counterexample :
    load_json (Stored.corruptBytes : Stored CacheT) [] =
      Except.error PyErr.unicodeDecodeError ∧
    load_json (Stored.corruptBytes : Stored CacheT) [] ≠ Except.ok ([] : CacheT) :=
  ⟨rfl, by decide⟩

/-- C9 (amended): `load_json` returns the caller's default when the storage
location is absent and, silently, when the content decodes as text but
fails JSON parsing; a cache file corrupted at the JSON level therefore does
not abort the enrichment pass, which behaves exactly as with an empty
cache.  (A file whose bytes are not valid UTF-8 instead raises an uncaught
`UnicodeDecodeError` — see the counterexample.) -/
theorem C9_corrupt_default :
    (∀ (α : Type) (d : α), load_json Stored.absent d = Except.ok d ∧
      load_json Stored.corruptJson d = Except.ok d) ∧
    (∀ (ms : List Record) (svc : Nat → GetResult) (k : Nat) (c : CacheT),
      load_json Stored.corruptJson ([] : CacheT) = Except.ok c →
      enrich ms c svc k = enrich ms ([] : CacheT) svc k) := by
  refine ⟨fun _ _ => ⟨rfl, rfl⟩, ?_⟩
  intro ms svc k c h
  injection h with h
  rw [← h]

/-- C9 witness: the cache loaded from a JSON-corrupted file is the empty
cache and enrichment over it is enrichment over the empty cache. -/
theorem C9_corrupt_default_witness :
    load_json (Stored.corruptJson : Stored CacheT) [] = Except.ok ([] : CacheT) ∧
    enrich ms0 [] (fun _ => GetResult.exn) 0 =
      enrich ms0 ([] : CacheT) (fun _ => GetResult.exn) 0 :=
  ⟨rfl, C9_corrupt_default.2 ms0 (fun _ => GetResult.exn) 0 [] rfl⟩

/-- C5 counterexample: a resolution response whose body is valid JSON of an
unexpected shape makes `data[0]["lat"]` raise an uncaught `KeyError`, which
propagates out of `geocode_address`; nothing is cached and nothing is saved
— refuting the claim that no response can propagate an exception. -/
theorem C5_counterexample :
    (geocode_address "Main St 1" [] badSvc 0).result = Except.error PyErr.keyError ∧
    (geocode_address "Main St 1" [] badSvc 0).cache = [] ∧
    (geocode_address "Main St 1" [] badSvc 0).saves = [] := by
  refine ⟨?_, ?_, ?_⟩ <;> decide

/-- C5 (amended): for the failure classes the handler actually covers —
transport failure, HTTP error status (throttle included), undecodable body,
or empty result — no exception propagates: a cache-missing lookup returns
the not-found outcome, caches it negatively under the address, and persists
the cache. -/
theorem C5_amended_no_crash (A : String) (cache : CacheT) (svc : Nat → GetResult) (k : Nat)
    (hA : A ≠ "") (hmiss : lookupC cache A = none)
    (hfail : ∀ n, failureResp (svc n) = true) :
    (geocode_address A cache svc k).result = Except.ok (none, none) ∧
    (geocode_address A cache svc k).cache = cache ++ [(A, (none, none))] ∧
    (geocode_address A cache svc k).saves =
      [SaveEvent.cacheFile (cache ++ [(A, (none, none))])] := by
  have h1 := geocode_nominatim_fail A svc k (hfail k) (hfail (k + 1))
  have h2 := geocode_nominatim_fail (A ++ ", Netherlands") svc
    (geocode_nominatim A svc k).next (hfail _) (hfail _)
  refine ⟨?_, ?_, ?_⟩ <;> simp [geocode_address, hA, hmiss, h1, h2]

/-- C5 amended witness: a permanently failing transport. -/
theorem C5_amended_no_crash_witness :
    (("Main St 1" : String) ≠ "") ∧
    lookupC ([] : CacheT) "Main St 1" = none ∧
    ((geocode_address "Main St 1" [] (fun _ => GetResult.exn) 0).result = Except.ok (none, none) ∧
     (geocode_address "Main St 1" [] (fun _ => GetResult.exn) 0).cache =
       [] ++ [("Main St 1", (none, none))] ∧
     (geocode_address "Main St 1" [] (fun _ => GetResult.exn) 0).saves =
       [SaveEvent.cacheFile ([] ++ [("Main St 1", (none, none))])]) :=
  ⟨by decide, by decide,
    C5_amended_no_crash "Main St 1" [] (fun _ => GetResult.exn) 0 (by decide) (by decide)
      (fun _ => rfl)⟩

theorem gaEmpty (A : String) (cache : CacheT) (svc : Nat → GetResult) (k : Nat)
    (hA : A = "") :
    geocode_address A cache svc k = ⟨Except.ok (none, none), cache, [], [], [], k⟩ := by
  simp [geocode_address, hA]

theorem gaHit (A : String) (cache : CacheT) (svc : Nat → GetResult) (k : Nat)
    (v : Option Rat × Option Rat) (hA : A ≠ "") (hl : lookupC cache A = some v) :
    geocode_address A cache svc k = ⟨Except.ok v, cache, [], [], [], k⟩ := by
  simp [geocode_address, hA, hl]

/-- Exhaustive description of the four behaviours of `geocode_address`:
falsy address, cache hit, propagated exception, and completed miss (in the
last case the stored value is an outcome of one of the two
`_geocode_nominatim` calls). -/
theorem gaCases (A : String) (c : CacheT) (svc : Nat → GetResult) (k : Nat) :
    (A = "" ∧ geocode_address A c svc k = ⟨Except.ok (none, none), c, [], [], [], k⟩) ∨
    (A ≠ "" ∧ ∃ v, lookupC c A = some v ∧
      geocode_address A c svc k = ⟨Except.ok v, c, [], [], [], k⟩) ∨
    (A ≠ "" ∧ lookupC c A = none ∧ ∃ e,
      (geocode_address A c svc k).result = Except.error e ∧
      (geocode_address A c svc k).cache = c ∧
      (geocode_address A c svc k).saves = []) ∨
    (A ≠ "" ∧ lookupC c A = none ∧ ∃ w,
      (geocode_address A c svc k).result = Except.ok w ∧
      (geocode_address A c svc k).cache = c ++ [(A, w)] ∧
      (geocode_address A c svc k).saves = [SaveEvent.cacheFile (c ++ [(A, w)])] ∧
      ((geocode_nominatim A svc k).result = Except.ok w ∨
       (geocode_nominatim (A ++ ", Netherlands") svc
         (geocode_nominatim A svc k).next).result = Except.ok w)) := by
  by_cases hA : A = ""
  · exact Or.inl ⟨hA, gaEmpty A c svc k hA⟩
  · rcases hl : lookupC c A with _ | v
    · rcases h1 : (geocode_nominatim A svc k).result with e | c1
      · refine Or.inr (Or.inr (Or.inl ⟨hA, rfl, e, ?_, ?_, ?_⟩)) <;>
          simp [geocode_address, hA, hl, h1]
      · by_cases hc1 : c1 = (none, none)
        · subst hc1
          rcases h2 : (geocode_nominatim (A ++ ", Netherlands") svc
              (geocode_nominatim A svc k).next).result with e2 | c2
          · refine Or.inr (Or.inr (Or.inl ⟨hA, rfl, e2, ?_, ?_, ?_⟩)) <;>
              simp [geocode_address, hA, hl, h1, h2]
          · refine Or.inr (Or.inr (Or.inr ⟨hA, rfl, c2, ?_, ?_, ?_, Or.inr rfl⟩)) <;>
              simp [geocode_address, hA, hl, h1, h2]
        · refine Or.inr (Or.inr (Or.inr ⟨hA, rfl, c1, ?_, ?_, ?_, Or.inl rfl⟩)) <;>
            simp [geocode_address, hA, hl, h1, hc1]
    · exact Or.inr (Or.inl ⟨hA, v, rfl, gaHit A c svc k v hA hl⟩)

theorem gaExtends (A : String) (c : CacheT) (svc : Nat → GetResult) (k : Nat) :
    cacheExtends c (geocode_address A c svc k).cache := by
  rcases gaCases A c svc k with ⟨_, heq⟩ | ⟨_, v, _, heq⟩ | ⟨_, _, e, _, hc, _⟩ |
    ⟨_, _, w, _, hc, _, _⟩
  · rw [heq]; exact fun a v h => h
  · rw [heq]; exact fun a v' h => h
  · rw [hc]; exact fun a v h => h
  · rw [hc]; exact fun a v h => lookupC_append_of_some _ _ _ _ h

theorem record_eta_update (r : Record) (la lo : Option Rat)
    (h1 : r.latitude = la) (h2 : r.longitude = lo) :
    ({ r with latitude := la, longitude := lo }) = r := by
  cases r
  simp_all

theorem settled_mono (c c2 : CacheT) (h : cacheExtends c c2) (r : Record)
    (hs : settled c r) : settled c2 r := by
  rcases hs with h1 | h2 | ⟨hne, v, hv, h3, h4⟩
  · exact Or.inl h1
  · exact Or.inr (Or.inl h2)
  · exact Or.inr (Or.inr ⟨hne, v, h _ _ hv, h3, h4⟩)

/-- After a completed (exception-free) enrichment pass, every record in the
resulting list is settled for the resulting cache. -/
theorem enrichSettled (svc : Nat → GetResult) (ms : List Record) :
    ∀ (prior : List Record) (cache : CacheT) (k : Nat),
      (∀ r ∈ prior, settled cache r) →
      (enrichFrom svc prior ms cache k).err = none →
      ∀ r ∈ (enrichFrom svc prior ms cache k).museums,
        settled (enrichFrom svc prior ms cache k).cache r := by
  induction ms with
  | nil =>
    intro prior cache k hprior _ r hr
    simp only [enrichFrom] at hr ⊢
    exact hprior r hr
  | cons item rest ih =>
    intro prior cache k hprior herr r hr
    by_cases hb : (item.latitude.isNone || item.longitude.isNone) = true
    · rcases hres : (geocode_address item.location cache svc k).result with e | v
      · simp only [enrichFrom, hb, if_true, hres] at herr
        exact Option.noConfusion herr
      · have hmono : cacheExtends cache (geocode_address item.location cache svc k).cache :=
          gaExtends item.location cache svc k
        have hset2 : settled (geocode_address item.location cache svc k).cache
            { item with latitude := v.1, longitude := v.2 } := by
          rcases gaCases item.location cache svc k with ⟨hA, heq⟩ | ⟨hA, v', hl, heq⟩ |
            ⟨hA, hl, e', hres', _, _⟩ | ⟨hA, hl, w, hres', hcache, _, _⟩
          · have hv : v = (none, none) := by
              have h := hres
              rw [heq] at h
              injection h with h
              exact h.symm
            subst hv
            exact Or.inr (Or.inl ⟨hA, rfl, rfl⟩)
          · have hv : v = v' := by
              have h := hres
              rw [heq] at h
              injection h with h
              exact h.symm
            rw [heq, hv]
            exact Or.inr (Or.inr ⟨hA, v', hl, rfl, rfl⟩)
          · rw [hres'] at hres
            exact absurd hres (by simp)
          · have hv : v = w := by
              rw [hres'] at hres
              injection hres with h
              exact h.symm
            rw [hv]
            refine Or.inr (Or.inr ⟨hA, w, ?_, rfl, rfl⟩)
            rw [hcache]
            exact lookupC_append_self _ _ _ hl
        simp only [enrichFrom, hb, if_true, hres] at herr hr ⊢
        refine ih (prior ++ [{ item with latitude := v.1, longitude := v.2 }])
          (geocode_address item.location cache svc k).cache
          (geocode_address item.location cache svc k).next ?_ herr r hr
        intro r2 hr2
        rcases List.mem_append.mp hr2 with h2 | h2
        · exact settled_mono _ _ hmono r2 (hprior r2 h2)
        · have : r2 = { item with latitude := v.1, longitude := v.2 } :=
            List.mem_singleton.mp h2
          subst this
          exact hset2
    · simp only [enrichFrom, if_neg hb] at herr hr ⊢
      refine ih (prior ++ [item]) cache k ?_ herr r hr
      intro r2 hr2
      rcases List.mem_append.mp hr2 with h2 | h2
      · exact hprior r2 h2
      · have : r2 = item := List.mem_singleton.mp h2
        subst this
        refine Or.inl ⟨fun h => hb ?_, fun h => hb ?_⟩ <;> simp [h]

/-- An enrichment pass over settled records changes nothing: same list, same
cache, zero resolution calls, no exception. -/
theorem enrichFixed (svc : Nat → GetResult) (ms : List Record) :
    ∀ (prior : List Record) (cache : CacheT) (k : Nat),
      (∀ r ∈ ms, settled cache r) →
      (enrichFrom svc prior ms cache k).museums = prior ++ ms ∧
      (enrichFrom svc prior ms cache k).cache = cache ∧
      (enrichFrom svc prior ms cache k).queries = [] ∧
      (enrichFrom svc prior ms cache k).err = none := by
  induction ms with
  | nil =>
    intro prior cache k _
    simp [enrichFrom]
  | cons item rest ih =>
    intro prior cache k hset
    have hitem := hset item (List.mem_cons_self _ _)
    have hrest : ∀ r ∈ rest, settled cache r :=
      fun r hr => hset r (List.mem_cons_of_mem _ hr)
    by_cases hb : (item.latitude.isNone || item.longitude.isNone) = true
    · rcases hitem with ⟨h1, h2⟩ | ⟨hloc, hlat, hlon⟩ | ⟨hne, v, hv, hlat, hlon⟩
      · exfalso
        rcases Bool.or_eq_true_iff.mp hb with h | h
        · exact h1 (Option.isNone_iff_eq_none.mp h)
        · exact h2 (Option.isNone_iff_eq_none.mp h)
      · have heq := gaEmpty item.location cache svc k hloc
        simp only [enrichFrom, hb, if_true, heq]
        rw [record_eta_update item none none hlat hlon]
        have hout := ih (prior ++ [item]) cache k hrest
        refine ⟨?_, hout.2.1, ?_, hout.2.2.2⟩
        · rw [hout.1, List.append_assoc]
          simp
        · rw [hout.2.2.1]
          simp
      · have heq := gaHit item.location cache svc k v hne hv
        simp only [enrichFrom, hb, if_true, heq]
        rw [record_eta_update item v.1 v.2 hlat hlon]
        have hout := ih (prior ++ [item]) cache k hrest
        refine ⟨?_, hout.2.1, ?_, hout.2.2.2⟩
        · rw [hout.1, List.append_assoc]
          simp
        · rw [hout.2.2.1]
          simp
    · simp only [enrichFrom, if_neg hb]
      have hout := ih (prior ++ [item]) cache k hrest
      refine ⟨?_, hout.2.1, hout.2.2.1, hout.2.2.2⟩
      rw [hout.1, List.append_assoc]
      simp

/-- C1: enriching the state produced by a completed enrichment run changes
nothing — identical record list, identical cache, zero external resolution
calls, and no exception — whatever the service would have answered. -/
theorem C1_idempotent (ms : List Record) (cache : CacheT) (svc : Nat → GetResult) (k : Nat)
    (h : (enrich ms cache svc k).err = none) (svc2 : Nat → GetResult) (k2 : Nat) :
    (enrich (enrich ms cache svc k).museums (enrich ms cache svc k).cache svc2 k2).museums =
      (enrich ms cache svc k).museums ∧
    (enrich (enrich ms cache svc k).museums (enrich ms cache svc k).cache svc2 k2).cache =
      (enrich ms cache svc k).cache ∧
    (enrich (enrich ms cache svc k).museums (enrich ms cache svc k).cache svc2 k2).queries =
      [] ∧
    (enrich (enrich ms cache svc k).museums (enrich ms cache svc k).cache svc2 k2).err =
      none := by
  have hs := enrichSettled svc ms [] cache k (by intro r hr; exact absurd hr (by simp)) h
  have hf := enrichFixed svc2 (enrich ms cache svc k).museums []
    (enrich ms cache svc k).cache k2 hs
  simpa [enrich] using hf

/-- C1 witness: one record geocoded in a first run; the second run, against
a service that would now fail every request, changes nothing and calls it
zero times. -/
theorem C1_idempotent_witness :
    (enrich ms0 [] svcOk 0).err = none ∧
    ((enrich (enrich ms0 [] svcOk 0).museums (enrich ms0 [] svcOk 0).cache
        (fun _ => GetResult.exn) 0).museums = (enrich ms0 [] svcOk 0).museums ∧
     (enrich (enrich ms0 [] svcOk 0).museums (enrich ms0 [] svcOk 0).cache
        (fun _ => GetResult.exn) 0).cache = (enrich ms0 [] svcOk 0).cache ∧
     (enrich (enrich ms0 [] svcOk 0).museums (enrich ms0 [] svcOk 0).cache
        (fun _ => GetResult.exn) 0).queries = [] ∧
     (enrich (enrich ms0 [] svcOk 0).museums (enrich ms0 [] svcOk 0).cache
        (fun _ => GetResult.exn) 0).err = none) :=
  ⟨by decide, C1_idempotent ms0 [] svcOk 0 (by decide) (fun _ => GetResult.exn) 0⟩

theorem geocode_nominatim_queries_all (q : String) (svc : Nat → GetResult) (k : Nat) :
    ((geocode_nominatim q svc k).queries.all (fun s => s == q)) = true := by
  rcases geocode_nominatim_queries q svc k with h | h <;> simp [h]

theorem geocode_nominatim_queries_head (q : String) (svc : Nat → GetResult) (k : Nat) :
    (geocode_nominatim q svc k).queries.head? = some q := by
  rcases geocode_nominatim_queries q svc k with h | h <;> simp [h]

/-- C3: on a cache miss that completes with outcome `c`, the enricher first
queries the service with the raw address, retries with the fixed country
suffix exactly when the raw query yields no result, stores `c` in the cache
under the original raw key, and persists the cache before returning. -/
theorem C3_cache_miss (A : String) (cache : CacheT) (svc : Nat → GetResult) (k : Nat)
    (c : Option Rat × Option Rat) (hA : A ≠ "") (hmiss : lookupC cache A = none)
    (hok : (geocode_address A cache svc k).result = Except.ok c) :
    cacheMissSpec A cache svc k c := by
  unfold cacheMissSpec
  rcases h1 : (geocode_nominatim A svc k).result with e | c1
  · exfalso
    simp [geocode_address, hA, hmiss, h1] at hok
  · by_cases hc1 : c1 = (none, none)
    · subst hc1
      rcases h2 : (geocode_nominatim (A ++ ", Netherlands") svc
          (geocode_nominatim A svc k).next).result with e2 | c2
      · exfalso
        simp [geocode_address, hA, hmiss, h1, h2] at hok
      · have hc : c2 = c := by
          simp [geocode_address, hA, hmiss, h1, h2] at hok
          exact hok
        subst hc
        refine ⟨?_, ?_, ?_, geocode_nominatim_queries_head _ _ _,
          geocode_nominatim_queries_all _ _ _, geocode_nominatim_queries_all _ _ _,
          fun _ => rfl, fun hne => absurd rfl hne⟩ <;>
          simp [geocode_address, hA, hmiss, h1, h2]
    · have hc : c1 = c := by
        simp [geocode_address, hA, hmiss, h1, hc1] at hok
        exact hok
      subst hc
      refine ⟨?_, ?_, ?_, geocode_nominatim_queries_head _ _ _,
        geocode_nominatim_queries_all _ _ _, geocode_nominatim_queries_all _ _ _,
        ?_, fun _ => rfl⟩
      · simp [geocode_address, hA, hmiss, h1, hc1]
      · simp [geocode_address, hA, hmiss, h1, hc1]
      · simp [geocode_address, hA, hmiss, h1, hc1]
      · intro hcontra
        simp at hcontra
        exact absurd hcontra hc1

/-- C3 witness: a concrete miss that falls through to the suffixed query. -/
theorem C3_cache_miss_witness :
    (("Main St 1" : String) ≠ "") ∧
    lookupC ([] : CacheT) "Main St 1" = none ∧
    (geocode_address "Main St 1" [] svcC3 0).result =
      Except.ok (some (mkRat 521 10), some (mkRat 26 5)) ∧
    cacheMissSpec "Main St 1" [] svcC3 0 (some (mkRat 521 10), some (mkRat 26 5)) :=
  ⟨by decide, by decide, by decide,
    C3_cache_miss "Main St 1" [] svcC3 0 (some (mkRat 521 10), some (mkRat 26 5))
      (by decide) (by decide) (by decide)⟩

theorem processResp_inv (st : Nat) (body : Except Unit Jsonv) (v : Option Rat × Option Rat)
    (h : processResp st body = Except.ok v) : v.1.isSome = v.2.isSome := by
  unfold processResp at h
  by_cases hr : 400 ≤ st ∧ st < 600
  · rw [if_pos hr] at h
    injection h with h
    rw [← h]
  · rw [if_neg hr] at h
    rcases body with u | d
    · injection h with h
      rw [← h]
    · by_cases hf : jfalsy d = true
      · simp only [hf, if_true] at h
        injection h with h
        rw [← h]
      · simp only [if_neg hf] at h
        rcases h0 : subscript0 d with e | d0 <;> simp only [h0] at h
        · simp at h
        · rcases h1 : subscriptStr d0 "lat" with e | latv <;> simp only [h1] at h
          · simp at h
          · rcases h2 : pyFloat latv with e | la <;> simp only [h2] at h
            · simp at h
            · rcases h3 : subscriptStr d0 "lon" with e | lonv <;> simp only [h3] at h
              · simp at h
              · rcases h4 : pyFloat lonv with e | lo <;> simp only [h4] at h
                · simp at h
                · injection h with h
                  rw [← h]
                  rfl

theorem geocode_nominatim_inv (q : String) (svc : Nat → GetResult) (k : Nat)
    (v : Option Rat × Option Rat)
    (h : (geocode_nominatim q svc k).result = Except.ok v) : v.1.isSome = v.2.isSome := by
  rcases hk : svc k with _ | ⟨st, body⟩
  · simp only [geocode_nominatim, hk] at h
    have h2 : Except.ok ((none, none) : Option Rat × Option Rat) = Except.ok v := h
    injection h2 with h2
    rw [← h2]
  · by_cases hst : st = 429
    · subst hst
      simp [geocode_nominatim, hk] at h
      rcases hk2 : svc (k + 1) with _ | ⟨st2, body2⟩
      · rw [hk2] at h
        have h2 : Except.ok ((none, none) : Option Rat × Option Rat) = Except.ok v := h
        injection h2 with h2
        rw [← h2]
      · rw [hk2] at h
        exact processResp_inv st2 body2 v h
    · simp [geocode_nominatim, hk, hst] at h
      exact processResp_inv st body v h

theorem gaResult_inv (A : String) (cache : CacheT) (svc : Nat → GetResult) (k : Nat)
    (w : Option Rat × Option Rat) (hc : cacheInvB cache = true)
    (h : (geocode_address A cache svc k).result = Except.ok w) :
    w.1.isSome = w.2.isSome := by
  rcases gaCases A cache svc k with ⟨hA, heq⟩ | ⟨hA, v, hl, heq⟩ | ⟨hA, hl, e, hres, _, _⟩ |
    ⟨hA, hl, v, hres, _, _, hsrc⟩
  · rw [heq] at h
    have h2 : Except.ok ((none, none) : Option Rat × Option Rat) = Except.ok w := h
    injection h2 with h2
    rw [← h2]
  · rw [heq] at h
    have h2 : Except.ok v = Except.ok w := h
    injection h2 with h2
    rw [← h2]
    have hm := lookupC_mem cache A v hl
    simpa using List.all_eq_true.mp hc (A, v) hm
  · rw [hres] at h
    exact absurd h (by simp)
  · have hv : w = v := by
      rw [hres] at h
      injection h with h
      exact h.symm
    subst hv
    rcases hsrc with h1 | h1 <;> exact geocode_nominatim_inv _ _ _ _ h1

theorem gaCache_inv (A : String) (cache : CacheT) (svc : Nat → GetResult) (k : Nat)
    (hc : cacheInvB cache = true) :
    cacheInvB (geocode_address A cache svc k).cache = true := by
  rcases gaCases A cache svc k with ⟨hA, heq⟩ | ⟨hA, v, hl, heq⟩ | ⟨hA, hl, e, hres, hcc, _⟩ |
    ⟨hA, hl, v, hres, hcc, _, hsrc⟩
  · rw [heq]; exact hc
  · rw [heq]; exact hc
  · rw [hcc]; exact hc
  · rw [hcc]
    have hv := gaResult_inv A cache svc k v hc hres
    have hcl := hc
    simp only [cacheInvB] at hcl ⊢
    simp [List.all_append, hcl, hv]

theorem enrichFrom_inv (svc : Nat → GetResult) (ms : List Record) :
    ∀ (prior : List Record) (cache : CacheT) (k : Nat),
      prior.all recInvB = true → ms.all recInvB = true → cacheInvB cache = true →
      (enrichFrom svc prior ms cache k).museums.all recInvB = true := by
  induction ms with
  | nil =>
    intro prior cache k hp _ _
    simpa [enrichFrom] using hp
  | cons item rest ih =>
    intro prior cache k hp hms hc
    obtain ⟨hitem, hrest⟩ : recInvB item = true ∧ rest.all recInvB = true := by
      simpa [List.all_cons, Bool.and_eq_true] using hms
    by_cases hb : (item.latitude.isNone || item.longitude.isNone) = true
    · rcases hres : (geocode_address item.location cache svc k).result with e | v
      · simp only [enrichFrom, hb, if_true, hres]
        simp [List.all_append, List.all_cons, hp, hitem, hrest]
      · simp only [enrichFrom, hb, if_true, hres]
        refine ih (prior ++ [{ item with latitude := v.1, longitude := v.2 }]) _ _ ?_ hrest
          (gaCache_inv _ _ _ _ hc)
        have hv := gaResult_inv item.location cache svc k v hc hres
        simp [List.all_append, hp, recInvB, hv]
    · simp only [enrichFrom, if_neg hb]
      exact ih (prior ++ [item]) cache k (by simp [List.all_append, hp, hitem]) hrest hc

theorem scrapeCard_no_coords (c : Card) (r : Record) (h : scrapeCard c = Except.ok r) :
    r.latitude = none ∧ r.longitude = none := by
  rcases c with ⟨lh, f, im⟩
  rcases lh with _ | lh2
  · simp [scrapeCard] at h
  · rcases lh2 with _ | plink
    · simp [scrapeCard] at h
    · rcases f with _ | page
      · simp [scrapeCard] at h
      · rcases im with _ | thumb
        · simp [scrapeCard] at h
        · simp only [scrapeCard] at h
          injection h with h
          rw [← h]
          exact ⟨rfl, rfl⟩

/-- C6: each pipeline step preserves the both-or-neither coordinate
invariant: a harvested record carries no coordinate at all; a resolution
outcome is a full pair or a full sentinel; and the enrichment pass maps a
record list satisfying the invariant (with a well-formed cache) to a record
list satisfying the invariant. -/
theorem C6_coordinate_invariant :
    (∀ (c : Card) (r : Record), scrapeCard c = Except.ok r →
      r.latitude = none ∧ r.longitude = none) ∧
    (∀ (q : String) (svc : Nat → GetResult) (k : Nat) (v : Option Rat × Option Rat),
      (geocode_nominatim q svc k).result = Except.ok v → v.1.isSome = v.2.isSome) ∧
    (∀ (ms : List Record) (cache : CacheT) (svc : Nat → GetResult) (k : Nat),
      ms.all recInvB = true → cacheInvB cache = true →
      (enrich ms cache svc k).museums.all recInvB = true) :=
  ⟨scrapeCard_no_coords, geocode_nominatim_inv,
    fun ms cache svc k hms hc => enrichFrom_inv svc ms [] cache k rfl hms hc⟩

/-- C6 witness: a one-record enrichment against a failing transport keeps
the invariant. -/
theorem C6_coordinate_invariant_witness :
    ([rec0].all recInvB = true) ∧ (cacheInvB [] = true) ∧
    (enrich [rec0] [] (fun _ => GetResult.exn) 0).museums.all recInvB = true :=
  ⟨by decide, by decide,
    C6_coordinate_invariant.2.2 [rec0] [] (fun _ => GetResult.exn) 0 (by decide) (by decide)⟩

end Museums
